import Mathlib

/-!
Verification development for the fastapi-currency-rebalancer core:
the market-data retry loop (`app/services/price_service.py`), the
mean-variance optimizer post-processing (`app/services/optimization_service.py`),
and the rebalancing recommendation generator (`app/routes/portfolios.py`,
`app/schemas.py`).

Modelling conventions:
- Python floats are modelled as rationals (ℚ); pandas NaN cells are `none`.
- The external QP solver (cvxpy/SCS) is an oracle argument returning
  `Option (List ℚ)`: `none` models `w.value is None` after a failed solve.
- `np.log` is an abstract argument `logf : ℚ → ℚ` (its values are irrelevant
  to every claim; prices are assumed positive so `log` introduces no NaN).
- Fallible Python code (exceptions) is modelled with `Except`.
-/

deriving instance DecidableEq for Except

namespace Rebalancer

/-! ## Market Data Client: `price_service._get_with_retries` -/

/-- `MAX_RETRIES = 3` from `price_service.py`. -/
def MAX_RETRIES : Nat := 3

/-- One step of the retry loop of `_get_with_retries`.  `feed n` is the HTTP
status code returned by the (n+1)-th GET.  Returns
(number of GET calls made, list of sleep durations in order, outcome).
The outcome is `Except.ok status` for a 2xx response and `Except.error status`
for the `HTTPStatusError` raised by `raise_for_status` (modelled as raising
exactly on non-2xx).  When the loop budget is exhausted the code runs
`resp.raise_for_status()` on the last response, which on that path is always
a 429. -/
def get_with_retries_go (feed : Nat → Nat) : Nat → Nat → Nat → List Nat → Nat × List Nat × Except Nat Nat
  | 0, _, attempts, sleeps => (attempts, sleeps.reverse, Except.error (feed (attempts - 1)))
  | fuel + 1, backoff, attempts, sleeps =>
    let st := feed attempts
    if st = 429 then
      get_with_retries_go feed fuel (backoff * 2) (attempts + 1) (backoff :: sleeps)
    else if 200 ≤ st ∧ st < 300 then
      (attempts + 1, sleeps.reverse, Except.ok st)
    else
      (attempts + 1, sleeps.reverse, Except.error st)

/-- `price_service._get_with_retries`: `backoff = 10`, loop
`for _ in range(1, MAX_RETRIES + 1)`. -/
def get_with_retries (feed : Nat → Nat) : Nat × List Nat × Except Nat Nat :=
  get_with_retries_go feed MAX_RETRIES 10 0 []

/-! ## Return/Risk Estimator: `optimization_service.compute_optimal_weights`,
lines computing `returns`, `mu`, `Sigma` -/

/-- Extract a list of options into a list of values, `none` if any is missing
(used to model `DataFrame.dropna()`: a row survives iff no cell is NaN). -/
def allSome : List (Option ℚ) → Option (List ℚ)
  | [] => some []
  | none :: _ => none
  | some a :: rest => (allSome rest).map (fun l => a :: l)

/-- `np.log(price_history / price_history.shift(1)).dropna()`.
Row `t` of the ratio table pairs row `t-1` with row `t`; the first row of the
shifted frame is all NaN, so the ratio table has one row per consecutive pair.
A ratio cell is NaN when either operand is missing; `dropna()` keeps exactly
the rows with no NaN cell. -/
def returnRows (logf : ℚ → ℚ) (rows : List (List (Option ℚ))) : List (List ℚ) :=
  ((rows.zip rows.tail).map (fun pc =>
    (pc.1.zip pc.2).map (fun ab =>
      match ab.1, ab.2 with
      | some prev, some cur => some (logf (cur / prev))
      | _, _ => none))).filterMap allSome

/-- Column `j` of the (dropna-ed) return table. -/
def column (rows : List (List ℚ)) (j : Nat) : List ℚ :=
  rows.filterMap (fun r => r.get? j)

/-- `returns.mean().values`: per-column arithmetic mean; the pandas mean of an
empty column is NaN (`none`).  `n` is the number of columns of the original
price history, which pandas preserves even when no rows survive `dropna()`. -/
def dfMean (n : Nat) (rows : List (List ℚ)) : List (Option ℚ) :=
  (List.range n).map (fun j =>
    let c := column rows j
    if c.length = 0 then none else some (c.sum / (c.length : ℚ)))

/-- One entry of `returns.cov().values` (sample covariance, ddof = 1): NaN
(`none`) whenever fewer than 2 rows are available. -/
def covEntry (rows : List (List ℚ)) (i j : Nat) : Option ℚ :=
  if rows.length < 2 then none
  else
    let xs := column rows i
    let ys := column rows j
    let mx := xs.sum / (xs.length : ℚ)
    let my := ys.sum / (ys.length : ℚ)
    some (((xs.zip ys).map (fun p => (p.1 - mx) * (p.2 - my))).sum / ((rows.length - 1 : Nat) : ℚ))

/-- `returns.cov().values` as an `n × n` table of possibly-NaN entries. -/
def dfCov (n : Nat) (rows : List (List ℚ)) : List (List (Option ℚ)) :=
  (List.range n).map (fun i => (List.range n).map (covEntry rows i))

/-! ## Allocation Optimizer: `optimization_service.compute_optimal_weights` -/

/-- Modelled from the spec: `app/core/constants.py` (imported for `EPS_ZERO`)
is not among the source files; the spec fixes the clipping threshold at 1e-6
("any weight below a fixed epsilon threshold (1e-6) is clipped to exactly 0"). -/
def EPS_ZERO : ℚ := 1 / 1000000

/-- Error taxonomy of the spec for the optimizer pipeline. -/
inductive OptErr where
  | insufficientHistory
  | optimizationFailed
deriving DecidableEq

/-- The external convex solver as an oracle: given `mu`, `Sigma`, `gamma` and
the optional `target_return` constraint, it either produces the vector
`w.value` or fails (`none`, modelling `w.value is None`). -/
abbrev Solver := List (Option ℚ) → List (List (Option ℚ)) → ℚ → Option ℚ → Option (List ℚ)

/-- `np.where(raw_w < EPS_ZERO, 0.0, raw_w)`: clip sub-epsilon weights to 0. -/
def clipWeights (raw_w : List ℚ) : List ℚ :=
  raw_w.map (fun x => if x < EPS_ZERO then 0 else x)

/-- The post-solve normalization of `compute_optimal_weights`: rescale the
clipped weights to sum to 1 when their sum is positive, otherwise
`np.ones_like(w_clipped) / n` (equal weight for every asset). -/
def normalizeWeights (n : Nat) (raw_w : List ℚ) : List ℚ :=
  let w_clipped := clipWeights raw_w
  if w_clipped.sum > 0 then w_clipped.map (fun x => x / w_clipped.sum)
  else w_clipped.map (fun _ => 1 / (n : ℚ))

/-- `optimization_service.compute_optimal_weights`.

The statistics `mu`/`Sigma` are computed exactly as in the source (with NaN
modelled by `none`) and handed to the solver oracle; the source performs no
row-count check before doing so.  When the solver yields no vector, the very
next source line `np.where(raw_w < EPS_ZERO, 0.0, raw_w)` raises a `TypeError`
(comparison of `None` with a float): modelled as `Except.error
OptErr.optimizationFailed`.  Otherwise the clipped weights are normalized
(`normalizeWeights`) and the result pairs `price_history.columns` with the
normalized weights, in column order (`{tickers[i]: float(w_norm[i]) ...}`). -/
def compute_optimal_weights (solve : Solver) (logf : ℚ → ℚ)
    (tickers : List String) (rows : List (List (Option ℚ)))
    (target_return : Option ℚ) (risk_tolerance : ℚ) : Except OptErr (List (String × ℚ)) :=
  match solve (dfMean tickers.length (returnRows logf rows))
      (dfCov tickers.length (returnRows logf rows))
      (risk_tolerance * 10) target_return with
  | none => Except.error OptErr.optimizationFailed
  | some raw_w => Except.ok (tickers.zip (normalizeWeights tickers.length raw_w))

/-! ## Recommendation Generator: `routes/portfolios.rebalance_portfolio`
and the pydantic schemas of `app/schemas.py` -/

/-- `schemas.Recommendation`. -/
structure Recommendation where
  symbol : String
  current_pct : ℚ
  target_pct : ℚ
  action : String
  amount_units : ℚ
  amount_value : ℚ
deriving DecidableEq

/-- `schemas.RebalancingReportRead`: fields `id`, `portfolio_id`,
`generated_at` (all required, declared with `Field(...)` and no default) and
`recommendations` (default `[]`).  The schema declares NO `message` field.
`generated_at` (a datetime) is modelled as an integer timestamp. -/
structure RebalancingReportRead where
  id : Int
  portfolio_id : Int
  generated_at : Int
  recommendations : List Recommendation
deriving DecidableEq

/-- Pydantic construction of `RebalancingReportRead` from keyword arguments.
A missing required field raises `ValidationError` (modelled as `Except.error`
listing the missing required fields); unknown keyword arguments such as
`message=` are silently ignored under pydantic's default `extra` policy, so
they do not appear among the parameters at all. -/
def mkRebalancingReportRead (ido pido gao : Option Int)
    (reco : Option (List Recommendation)) : Except (List String) RebalancingReportRead :=
  match ido, pido, gao with
  | some i, some p, some g => Except.ok ⟨i, p, g, reco.getD []⟩
  | i, p, g =>
    Except.error ((if i.isNone then ["id"] else []) ++
      (if p.isNone then ["portfolio_id"] else []) ++
      (if g.isNone then ["generated_at"] else []))

/-- Python `dict.get(k, d)` on a string-keyed dict (keys unique in a dict, so
the first match is the value). -/
def dictGet (d : List (String × ℚ)) (k : String) (dflt : ℚ) : ℚ :=
  match d.find? (fun p => p.1 == k) with
  | some p => p.2
  | none => dflt

/-- The `quantities` dict comprehension
`{pa.asset.symbol.lower(): pa.quantity for pa in port.assets}`: on duplicate
symbols the last occurrence wins; lookups in the route never miss because the
iterated symbols come from the same holdings. -/
def quantitiesOf (holdings : List (String × ℚ)) (s : String) : ℚ :=
  match holdings.reverse.find? (fun p => p.1 == s) with
  | some p => p.2
  | none => 0

/-- `total_value = sum(quantities[sym] * prices.get(sym, 0.0) for sym in symbols)`.
`prices` is modelled as a total map because `fetch_current_prices` returns an
entry (defaulting to 0.0) for every requested symbol. -/
def total_value (symbols : List String) (quantities prices : String → ℚ) : ℚ :=
  (symbols.map (fun s => quantities s * prices s)).sum

/-- The loop body of `rebalance_portfolio` building one recommendation dict:
`current_pct = quantities[sym] * prices[sym] / total_value`,
`target_pct = weights.get(sym, 0.0)`, `diff = target_pct - current_pct`,
`action = "buy" if diff > 0 else "sell"`,
`units = abs(diff) * total_value / (prices[sym] or 1.0)` (Python `or`: a 0.0
price is falsy, so the divisor is 1.0 exactly when the price is 0),
`value = units * prices[sym]`. -/
def mkRecommendation (tv : ℚ) (quantities prices : String → ℚ)
    (weights : List (String × ℚ)) (sym : String) : Recommendation :=
  let current_pct := quantities sym * prices sym / tv
  let target_pct := dictGet weights sym 0
  let diff := target_pct - current_pct
  let units := |diff| * tv / (if prices sym = 0 then 1 else prices sym)
  { symbol := sym
    current_pct := current_pct
    target_pct := target_pct
    action := if diff > 0 then "buy" else "sell"
    amount_units := units
    amount_value := units * prices sym }

/-- The `for sym in symbols` loop of `rebalance_portfolio`: one recommendation
per symbol, in the order of the input symbol list. -/
def recommendationsFor (symbols : List String) (quantities prices : String → ℚ)
    (weights : List (String × ℚ)) : List Recommendation :=
  symbols.map (mkRecommendation (total_value symbols quantities prices) quantities prices weights)

/-- The value-dependent tail of `routes/portfolios.rebalance_portfolio`
(after the 404/400 guards and the price fetch).  `holdings` is the ordered
list of `(symbol, quantity)` pairs from `port.assets`; `report_id` and
`generated_at` stand for the values the database assigns when the non-zero
path persists the report via `crud.create_rebalancing_report`.  On
`total_value == 0` the source constructs
`RebalancingReportRead(id=0, portfolio_id=portfolio_id, recommendations=[],
message=...)` — without `generated_at`, and with a `message=` keyword the
schema does not declare. -/
def rebalance_portfolio (portfolio_id report_id generated_at : Int)
    (holdings : List (String × ℚ)) (prices : String → ℚ)
    (weights : List (String × ℚ)) : Except (List String) RebalancingReportRead :=
  let symbols := holdings.map Prod.fst
  let quantities := quantitiesOf holdings
  let tv := total_value symbols quantities prices
  if tv = 0 then
    mkRebalancingReportRead (some 0) (some portfolio_id) none (some [])
  else
    Except.ok
      { id := report_id
        portfolio_id := portfolio_id
        generated_at := generated_at
        recommendations := recommendationsFor symbols quantities prices weights }

/-! ## Helper lemmas -/

theorem sum_map_div (l : List ℚ) (c : ℚ) :
    (l.map (fun x => x / c)).sum = l.sum / c := by
  induction l with
  | nil => simp
  | cons a t ih => simp [ih, add_div]

theorem sum_map_const (l : List ℚ) (c : ℚ) :
    (l.map (fun _ => c)).sum = (l.length : ℚ) * c := by
  induction l with
  | nil => simp
  | cons a t ih =>
    simp only [List.map_cons, List.sum_cons, ih, List.length_cons]
    push_cast
    ring

theorem clip_nonneg (x : ℚ) : 0 ≤ (if x < EPS_ZERO then 0 else x) := by
  by_cases h : x < EPS_ZERO
  · simp [h]
  · rw [if_neg h]
    have h1 : (0 : ℚ) < EPS_ZERO := by norm_num [EPS_ZERO]
    linarith [le_of_not_lt h]

theorem clipWeights_nonneg (raw : List ℚ) : ∀ y ∈ clipWeights raw, 0 ≤ y := by
  intro y hy
  rcases List.mem_map.mp hy with ⟨x, _, rfl⟩
  exact clip_nonneg x

theorem clipWeights_length (raw : List ℚ) : (clipWeights raw).length = raw.length :=
  List.length_map raw _

theorem normalizeWeights_length (n : Nat) (raw : List ℚ) :
    (normalizeWeights n raw).length = raw.length := by
  unfold normalizeWeights
  by_cases h : (clipWeights raw).sum > 0
  · rw [if_pos h, List.length_map, clipWeights_length]
  · rw [if_neg h, List.length_map, clipWeights_length]

theorem normalizeWeights_nonneg (n : Nat) (raw : List ℚ) :
    ∀ x ∈ normalizeWeights n raw, 0 ≤ x := by
  intro x hx
  unfold normalizeWeights at hx
  by_cases h : (clipWeights raw).sum > 0
  · rw [if_pos h] at hx
    rcases List.mem_map.mp hx with ⟨y, hy, rfl⟩
    exact div_nonneg (clipWeights_nonneg raw y hy) (le_of_lt h)
  · rw [if_neg h] at hx
    rcases List.mem_map.mp hx with ⟨y, hy, rfl⟩
    exact one_div_nonneg.mpr (Nat.cast_nonneg n)

theorem normalizeWeights_sum (n : Nat) (raw : List ℚ)
    (hlen : raw.length = n) (hn : 1 ≤ n) :
    (normalizeWeights n raw).sum = 1 := by
  unfold normalizeWeights
  by_cases h : (clipWeights raw).sum > 0
  · rw [if_pos h, sum_map_div, div_self (ne_of_gt h)]
  · rw [if_neg h, sum_map_const, clipWeights_length, hlen]
    have hne : ((n : ℚ)) ≠ 0 := Nat.cast_ne_zero.mpr (by omega)
    field_simp

theorem mkRecommendation_symbol (tv : ℚ) (q p : String → ℚ)
    (w : List (String × ℚ)) (sym : String) :
    (mkRecommendation tv q p w sym).symbol = sym := rfl

theorem mkRecommendation_current_pct (tv : ℚ) (q p : String → ℚ)
    (w : List (String × ℚ)) (sym : String) :
    (mkRecommendation tv q p w sym).current_pct = q sym * p sym / tv := rfl

theorem mkRecommendation_target_pct (tv : ℚ) (q p : String → ℚ)
    (w : List (String × ℚ)) (sym : String) :
    (mkRecommendation tv q p w sym).target_pct = dictGet w sym 0 := rfl

theorem mkRecommendation_action (tv : ℚ) (q p : String → ℚ)
    (w : List (String × ℚ)) (sym : String) :
    (mkRecommendation tv q p w sym).action =
      if dictGet w sym 0 - q sym * p sym / tv > 0 then "buy" else "sell" := rfl

theorem mkRecommendation_amount_units (tv : ℚ) (q p : String → ℚ)
    (w : List (String × ℚ)) (sym : String) :
    (mkRecommendation tv q p w sym).amount_units =
      |dictGet w sym 0 - q sym * p sym / tv| * tv /
        (if p sym = 0 then (1 : ℚ) else p sym) := rfl

theorem recommendationsFor_symbols (symbols : List String) (q p : String → ℚ)
    (w : List (String × ℚ)) :
    (recommendationsFor symbols q p w).map (fun r => r.symbol) = symbols := by
  unfold recommendationsFor
  rw [List.map_map]
  simp [Function.comp_def, mkRecommendation_symbol]

/-! ## Claims -/

/-- C1: with one holding of quantity 0 the total portfolio value is 0, and the
zero-value branch of `rebalance_portfolio` raises a pydantic `ValidationError`
instead of returning an empty recommendation list with a message: the branch
constructs `RebalancingReportRead` without the required `generated_at` field,
and the schema declares no `message` field at all, so the explanatory message
could not be carried even if construction succeeded. -/
theorem C1_zero_value_branch_raises :
    total_value ["bitcoin"] (quantitiesOf [("bitcoin", 0)]) (fun _ => 50000) = 0 ∧
    rebalance_portfolio 1 7 0 [("bitcoin", 0)] (fun _ => 50000) [] =
      Except.error ["generated_at"] := by
  constructor
  · simp [total_value, quantitiesOf]
  · simp [rebalance_portfolio, total_value, quantitiesOf, mkRebalancingReportRead]

/-- C3 (amended): against a feed that always answers 429,
`_get_with_retries` makes exactly 3 GET attempts and then raises the
rate-limit `HTTPStatusError`; the sleeps are 10, 20 and 40 — backoff doubles
from base 10, and the loop also sleeps 40 after the third 429 before the
post-loop `raise_for_status()`. -/
theorem C3_retry_bound (feed : Nat → Nat) (h : ∀ n, feed n = 429) :
    get_with_retries feed = (3, [10, 20, 40], Except.error 429) := by
  have hf : feed = fun _ => 429 := funext h
  subst hf
  decide

theorem C3_retry_bound_witness :
    (∀ n : Nat, (fun _ : Nat => 429) n = 429) ∧
    get_with_retries (fun _ => 429) = (3, [10, 20, 40], Except.error 429) :=
  ⟨fun _ => rfl, C3_retry_bound (fun _ => 429) (fun _ => rfl)⟩

/-- C3 (counterexample to the claim as stated): the always-429 feed produces
sleep sequence [10, 20, 40], not [10, 20] — there IS a further wait after the
final attempt. -/
theorem C3_sleeps_counterexample :
    get_with_retries (fun _ => 429) = (3, [10, 20, 40], Except.error 429) ∧
    (get_with_retries (fun _ => 429)).2.1 ≠ [10, 20] := by
  decide

/-- C7: every recommendation emitted by the generator has action "buy" exactly
when `target_pct - current_pct > 0` and "sell" otherwise; in particular when
`target_pct = current_pct` exactly, the action is "sell". -/
theorem C7_action_tie_break (symbols : List String) (q p : String → ℚ)
    (w : List (String × ℚ)) (r : Recommendation)
    (hr : r ∈ recommendationsFor symbols q p w) :
    (r.action = "buy" ↔ r.target_pct - r.current_pct > 0) ∧
    (r.target_pct = r.current_pct → r.action = "sell") := by
  rcases List.mem_map.mp hr with ⟨sym, _, rfl⟩
  rw [mkRecommendation_action, mkRecommendation_target_pct, mkRecommendation_current_pct]
  constructor
  · by_cases hd : dictGet w sym 0 - q sym * p sym / total_value symbols q p > 0
    · rw [if_pos hd]
      exact ⟨fun _ => hd, fun _ => rfl⟩
    · rw [if_neg hd]
      exact ⟨fun hb => absurd hb (by decide), fun hgt => absurd hgt hd⟩
  · intro he
    rw [he, sub_self, if_neg (lt_irrefl 0)]

theorem C7_action_tie_break_witness :
    (mkRecommendation (total_value ["btc"] (fun _ => 1) (fun _ => 1))
        (fun _ => 1) (fun _ => 1) [] "btc"
      ∈ recommendationsFor ["btc"] (fun _ => 1) (fun _ => 1) []) ∧
    ((mkRecommendation (total_value ["btc"] (fun _ => 1) (fun _ => 1))
          (fun _ => 1) (fun _ => 1) [] "btc").action = "buy" ↔
      (mkRecommendation (total_value ["btc"] (fun _ => 1) (fun _ => 1))
          (fun _ => 1) (fun _ => 1) [] "btc").target_pct -
        (mkRecommendation (total_value ["btc"] (fun _ => 1) (fun _ => 1))
          (fun _ => 1) (fun _ => 1) [] "btc").current_pct > 0) ∧
    ((mkRecommendation (total_value ["btc"] (fun _ => 1) (fun _ => 1))
          (fun _ => 1) (fun _ => 1) [] "btc").target_pct =
        (mkRecommendation (total_value ["btc"] (fun _ => 1) (fun _ => 1))
          (fun _ => 1) (fun _ => 1) [] "btc").current_pct →
      (mkRecommendation (total_value ["btc"] (fun _ => 1) (fun _ => 1))
          (fun _ => 1) (fun _ => 1) [] "btc").action = "sell") :=
  have hm : mkRecommendation (total_value ["btc"] (fun _ => 1) (fun _ => 1))
      (fun _ => 1) (fun _ => 1) [] "btc"
      ∈ recommendationsFor ["btc"] (fun _ => 1) (fun _ => 1) [] := by
    simp [recommendationsFor]
  ⟨hm, C7_action_tie_break ["btc"] (fun _ => 1) (fun _ => 1) [] _ hm⟩

/-- C8: with nonzero total value, the route succeeds and emits exactly one
recommendation per holding, with output order equal to the input holdings
order, for every target-weights association list (the weights mapping is only
read pointwise, so its iteration order is irrelevant). -/
theorem C8_order_preservation (pid rid ts : Int) (holdings : List (String × ℚ))
    (prices : String → ℚ) (weights : List (String × ℚ))
    (h : total_value (holdings.map Prod.fst) (quantitiesOf holdings) prices ≠ 0) :
    (rebalance_portfolio pid rid ts holdings prices weights).map
      (fun rep => rep.recommendations.map (fun r => r.symbol)) =
    Except.ok (holdings.map Prod.fst) := by
  simp only [rebalance_portfolio]
  rw [if_neg h]
  simp [Except.map, recommendationsFor_symbols]

theorem C8_order_preservation_witness :
    total_value ([("btc", (1 : ℚ)), ("eth", 5)].map Prod.fst)
      (quantitiesOf [("btc", 1), ("eth", 5)])
      (fun s => if s = "btc" then 1 else 0) ≠ 0 ∧
    (rebalance_portfolio 1 2 5 [("btc", 1), ("eth", 5)]
        (fun s => if s = "btc" then 1 else 0) [("eth", 1)]).map
      (fun rep => rep.recommendations.map (fun r => r.symbol)) =
    Except.ok ["btc", "eth"] :=
  have h : total_value ([("btc", (1 : ℚ)), ("eth", 5)].map Prod.fst)
      (quantitiesOf [("btc", 1), ("eth", 5)])
      (fun s => if s = "btc" then 1 else 0) ≠ 0 := by
    simp [total_value, quantitiesOf]
  ⟨h, C8_order_preservation 1 2 5 [("btc", 1), ("eth", 5)] _ [("eth", 1)] h⟩

/-- C9: in the per-holding unit computation the divisor is the price unless
the price is 0, in which case it is 1 (Python `prices[sym] or 1.0`); the
divisor is nonzero for every possible price, so the computation never divides
by zero. -/
theorem C9_units_never_div_zero (tv : ℚ) (q p : String → ℚ)
    (w : List (String × ℚ)) (sym : String) :
    (if p sym = 0 then (1 : ℚ) else p sym) ≠ 0 ∧
    (mkRecommendation tv q p w sym).amount_units =
      |dictGet w sym 0 - q sym * p sym / tv| * tv /
        (if p sym = 0 then (1 : ℚ) else p sym) := by
  constructor
  · by_cases hp : p sym = 0
    · rw [if_pos hp]; exact one_ne_zero
    · rw [if_neg hp]; exact hp
  · exact mkRecommendation_amount_units tv q p w sym

/-- C10: past the zero-value check, the `current_pct` fields of the emitted
recommendations sum to exactly 1 in exact (rational) arithmetic, because
`total_value` sums `quantity * price` over the same symbols in the same
order. -/
theorem C10_current_pct_sum_one (symbols : List String) (q p : String → ℚ)
    (w : List (String × ℚ)) (h : total_value symbols q p ≠ 0) :
    ((recommendationsFor symbols q p w).map (fun r => r.current_pct)).sum = 1 := by
  unfold recommendationsFor
  rw [List.map_map]
  show (symbols.map (fun s => q s * p s / total_value symbols q p)).sum = 1
  have h2 : (symbols.map fun s => q s * p s / total_value symbols q p) =
      (symbols.map fun s => q s * p s).map fun x => x / total_value symbols q p := by
    rw [List.map_map]
    rfl
  rw [h2, sum_map_div]
  exact div_self h

theorem C10_current_pct_sum_one_witness :
    total_value ["x"] (fun _ => 1) (fun _ => 1) ≠ 0 ∧
    ((recommendationsFor ["x"] (fun _ => 1) (fun _ => 1) []).map
      (fun r => r.current_pct)).sum = 1 :=
  have h : total_value ["x"] (fun _ => (1 : ℚ)) (fun _ => 1) ≠ 0 := by
    simp [total_value]
  ⟨h, C10_current_pct_sum_one ["x"] (fun _ => 1) (fun _ => 1) [] h⟩

/-- C2: whenever the solver produces a weight vector of the right length for a
non-empty asset set, `compute_optimal_weights` returns a weight per ticker,
all weights nonnegative and summing to exactly 1 (hence within any positive
tolerance such as 1e-6). -/
theorem C2_weight_validity (solve : Solver) (logf : ℚ → ℚ)
    (tickers : List String) (rows : List (List (Option ℚ)))
    (tr : Option ℚ) (rt : ℚ) (raw : List ℚ)
    (hs : solve (dfMean tickers.length (returnRows logf rows))
            (dfCov tickers.length (returnRows logf rows)) (rt * 10) tr = some raw)
    (hlen : raw.length = tickers.length)
    (hn : 1 ≤ tickers.length) :
    ∃ ws, compute_optimal_weights solve logf tickers rows tr rt = Except.ok ws ∧
      ws.map Prod.fst = tickers ∧
      (∀ x ∈ ws.map Prod.snd, 0 ≤ x) ∧ (ws.map Prod.snd).sum = 1 := by
  have hzip : (tickers.zip (normalizeWeights tickers.length raw)).map Prod.snd =
      normalizeWeights tickers.length raw :=
    List.map_snd_zip _ _ (by rw [normalizeWeights_length, hlen])
  refine ⟨tickers.zip (normalizeWeights tickers.length raw), ?_, ?_, ?_, ?_⟩
  · unfold compute_optimal_weights
    rw [hs]
  · exact List.map_fst_zip _ _ (by rw [normalizeWeights_length, hlen])
  · rw [hzip]
    exact normalizeWeights_nonneg _ _
  · rw [hzip]
    exact normalizeWeights_sum _ _ hlen hn

theorem C2_weight_validity_witness :
    ((fun _ _ _ _ => some [(1 : ℚ)] : Solver)
        (dfMean (["a"] : List String).length (returnRows id []))
        (dfCov (["a"] : List String).length (returnRows id []))
        ((0 : ℚ) * 10) none = some [1]) ∧
    ([(1 : ℚ)].length = (["a"] : List String).length) ∧
    (1 ≤ (["a"] : List String).length) ∧
    ∃ ws, compute_optimal_weights (fun _ _ _ _ => some [1]) id ["a"] [] none 0 =
        Except.ok ws ∧
      ws.map Prod.fst = ["a"] ∧
      (∀ x ∈ ws.map Prod.snd, 0 ≤ x) ∧ (ws.map Prod.snd).sum = 1 :=
  ⟨rfl, rfl, by decide,
    C2_weight_validity (fun _ _ _ _ => some [1]) id ["a"] [] none 0 [1] rfl rfl (by decide)⟩

/-- C4: when the solver reports failure (`w.value is None`), the function
raises — the source crashes on the very next line comparing `None` with
`EPS_ZERO`, modelled as the fatal `OptErr.optimizationFailed` — and never
returns any weight mapping, best-effort or zero. -/
theorem C4_solver_failure_raises (solve : Solver) (logf : ℚ → ℚ)
    (tickers : List String) (rows : List (List (Option ℚ)))
    (tr : Option ℚ) (rt : ℚ)
    (hs : solve (dfMean tickers.length (returnRows logf rows))
            (dfCov tickers.length (returnRows logf rows)) (rt * 10) tr = none) :
    compute_optimal_weights solve logf tickers rows tr rt =
      Except.error OptErr.optimizationFailed ∧
    ∀ ws, compute_optimal_weights solve logf tickers rows tr rt ≠ Except.ok ws := by
  have h1 : compute_optimal_weights solve logf tickers rows tr rt =
      Except.error OptErr.optimizationFailed := by
    unfold compute_optimal_weights
    rw [hs]
  exact ⟨h1, fun ws hws => by rw [h1] at hws; exact Except.noConfusion hws⟩

theorem C4_solver_failure_raises_witness :
    ((fun _ _ _ _ => none : Solver)
        (dfMean (["a"] : List String).length (returnRows id []))
        (dfCov (["a"] : List String).length (returnRows id []))
        ((0 : ℚ) * 10) none = none) ∧
    (compute_optimal_weights (fun _ _ _ _ => none) id ["a"] [] none 0 =
        Except.error OptErr.optimizationFailed ∧
      ∀ ws, compute_optimal_weights (fun _ _ _ _ => none) id ["a"] [] none 0 ≠
        Except.ok ws) :=
  ⟨rfl, C4_solver_failure_raises (fun _ _ _ _ => none) id ["a"] [] none 0 rfl⟩

/-- C6: if every solver weight falls below the epsilon threshold (so clipping
zeroes them all out and the clipped sum is 0, not positive), the returned
weights are exactly the uniform distribution: every asset gets `1/n`. -/
theorem C6_uniform_fallback (solve : Solver) (logf : ℚ → ℚ)
    (tickers : List String) (rows : List (List (Option ℚ)))
    (tr : Option ℚ) (rt : ℚ) (raw : List ℚ)
    (hs : solve (dfMean tickers.length (returnRows logf rows))
            (dfCov tickers.length (returnRows logf rows)) (rt * 10) tr = some raw)
    (hclip : ∀ x ∈ raw, x < EPS_ZERO)
    (hlen : raw.length = tickers.length) :
    ∃ ws, compute_optimal_weights solve logf tickers rows tr rt = Except.ok ws ∧
      ws.map Prod.fst = tickers ∧
      ∀ x ∈ ws.map Prod.snd, x = 1 / (tickers.length : ℚ) := by
  have hz : ∀ y ∈ clipWeights raw, y = 0 := by
    intro y hy
    rcases List.mem_map.mp hy with ⟨x, hx, rfl⟩
    exact if_pos (hclip x hx)
  have hsum : (clipWeights raw).sum = 0 := List.sum_eq_zero hz
  have hnorm : normalizeWeights tickers.length raw =
      (clipWeights raw).map (fun _ => 1 / (tickers.length : ℚ)) := by
    simp only [normalizeWeights]
    rw [hsum, if_neg (lt_irrefl 0)]
  refine ⟨tickers.zip (normalizeWeights tickers.length raw), ?_, ?_, ?_⟩
  · unfold compute_optimal_weights
    rw [hs]
  · exact List.map_fst_zip _ _ (by rw [normalizeWeights_length, hlen])
  · intro x hx
    rcases List.mem_map.mp hx with ⟨pair, hp, rfl⟩
    rcases pair with ⟨a, b⟩
    have hb : b ∈ normalizeWeights tickers.length raw := (List.of_mem_zip hp).2
    rw [hnorm] at hb
    rcases List.mem_map.mp hb with ⟨y, _, rfl⟩
    rfl

theorem C6_uniform_fallback_witness :
    ((fun _ _ _ _ => some [(0 : ℚ), 0] : Solver)
        (dfMean (["a", "b"] : List String).length (returnRows id []))
        (dfCov (["a", "b"] : List String).length (returnRows id []))
        ((0 : ℚ) * 10) none = some [0, 0]) ∧
    (∀ x ∈ [(0 : ℚ), 0], x < EPS_ZERO) ∧
    ([(0 : ℚ), 0].length = (["a", "b"] : List String).length) ∧
    ∃ ws, compute_optimal_weights (fun _ _ _ _ => some [0, 0]) id ["a", "b"] [] none 0 =
        Except.ok ws ∧
      ws.map Prod.fst = ["a", "b"] ∧
      ∀ x ∈ ws.map Prod.snd, x = 1 / ((["a", "b"] : List String).length : ℚ) :=
  have hc : ∀ x ∈ [(0 : ℚ), 0], x < EPS_ZERO := by
    have hp : (0 : ℚ) < EPS_ZERO := by norm_num [EPS_ZERO]
    simp [hp]
  ⟨rfl, hc, rfl,
    C6_uniform_fallback (fun _ _ _ _ => some [0, 0]) id ["a", "b"] [] none 0 [0, 0] rfl hc rfl⟩

/-- C5: the source performs no minimum-row check.  At a price history with a
single row there are 0 usable return rows (fewer than 2) and the column means
are all NaN, yet `compute_optimal_weights` silently continues into the solver
— with a solver oracle it even returns a weight mapping — and no input can
ever make it fail with `OptErr.insufficientHistory`. -/
theorem C5_no_insufficient_history_check :
    (returnRows id [[some 1, some 2]]).length = 0 ∧
    dfMean 2 (returnRows id [[some 1, some 2]]) = [none, none] ∧
    compute_optimal_weights (fun _ _ _ _ => some [1, 0]) id ["a", "b"]
        [[some 1, some 2]] none (1 / 2) = Except.ok [("a", 1), ("b", 0)] ∧
    ∀ (solve : Solver) (logf : ℚ → ℚ) (tr : Option ℚ) (rt : ℚ),
      compute_optimal_weights solve logf ["a", "b"] [[some 1, some 2]] tr rt ≠
        Except.error OptErr.insufficientHistory := by
  refine ⟨rfl, rfl, ?_, ?_⟩
  · have h1 : ¬ (1 : ℚ) < EPS_ZERO := by norm_num [EPS_ZERO]
    have h0 : (0 : ℚ) < EPS_ZERO := by norm_num [EPS_ZERO]
    simp [compute_optimal_weights, normalizeWeights, clipWeights, h1, h0]
  · intro solve logf tr rt h
    unfold compute_optimal_weights at h
    rcases hsv : solve (dfMean (["a", "b"] : List String).length
        (returnRows logf [[some 1, some 2]]))
        (dfCov (["a", "b"] : List String).length (returnRows logf [[some 1, some 2]]))
        (rt * 10) tr with _ | raw
    · rw [hsv] at h
      simp at h
    · rw [hsv] at h
      exact Except.noConfusion h

end Rebalancer
